import Mathlib

/-!
# DreamSaver goal ledger — shallow embedding

A shallow embedding of the `DreamSaver` Solidity contract (goal ledger and
withdrawal state machine) and proofs of the specified properties.

Modelling conventions:
* `address` is modelled as `Nat`; `uint256` amounts and timestamps as `Nat`
  (deposit amounts are actual transferred ether, bounded far below `2^256`
  by ether conservation, so checked-arithmetic overflow is unreachable and
  balances are modelled as unbounded naturals).
* the contract storage (`goals` mapping, `ownerGoals` mapping, `nextGoalId`
  counter) becomes a state record, plus the emitted event log;
* each external function becomes a state-passing function; a Solidity
  `require` failure (revert) becomes an `Except.error` carrying the revert
  reason, and at the transaction level a reverted call leaves the state
  unchanged;
* the low-level external call in `withdraw` is a parameter
  `transfer : Nat → Nat → DreamSaver → Bool × DreamSaver`:
  it receives the recipient, the amount and the ledger state at the moment
  control leaves the contract, may reenter (returning an updated state),
  and reports success or failure.
-/

/-- The `SavingGoal` struct of the contract. -/
structure SavingGoal where
  owner : Nat
  title : String
  description : String
  targetAmount : Nat
  deadline : Nat
  balance : Nat
  isWithdrawn : Bool
deriving DecidableEq

/-- The zero-initialised struct a Solidity mapping returns for an unset key. -/
def SavingGoal.defaultGoal : SavingGoal :=
  { owner := 0, title := "", description := "", targetAmount := 0,
    deadline := 0, balance := 0, isWithdrawn := false }

/-- The three event kinds the contract emits. -/
inductive Event where
  | GoalCreated (goalId owner targetAmount deadline : Nat)
  | Deposited (goalId fromAddr amount newBalance : Nat)
  | Withdrawn (goalId recipient amount : Nat)
deriving DecidableEq

/-- Revert reasons, one per `require` message of the contract. -/
inductive Err where
  | goalNotFound        -- "Goal does not exist"
  | notOwner            -- "Only goal owner can withdraw"
  | alreadyWithdrawn    -- "Goal has already been withdrawn"
  | notEligible         -- "Cannot withdraw: deadline not passed and target not reached"
  | zeroBalance         -- "No balance to withdraw"
  | transferFailed      -- "Transfer failed"
  | zeroTarget          -- "Target amount must be greater than 0"
  | pastDeadline        -- "Deadline must be in the future"
  | emptyTitle          -- "Title cannot be empty"
  | zeroAmount          -- "Deposit amount must be greater than 0"
deriving DecidableEq

/-- Contract storage: the `goals` mapping, the `ownerGoals` mapping, the
`nextGoalId` counter, plus the log of emitted events. -/
structure DreamSaver where
  goals : Nat → SavingGoal
  ownerGoals : Nat → List Nat
  nextGoalId : Nat
  log : List Event

/-- Freshly deployed contract: zeroed mappings and counter. -/
def initState : DreamSaver :=
  { goals := fun _ => SavingGoal.defaultGoal,
    ownerGoals := fun _ => [],
    nextGoalId := 0,
    log := [] }

/-- Contract function `goalExists`: `goalId < nextGoalId`. -/
def goalExists (s : DreamSaver) (goalId : Nat) : Bool :=
  goalId < s.nextGoalId

/-- Contract function `createGoal(title, description, targetAmount, deadline)` called by
`sender` at time `now` (`block.timestamp`). Returns the new goal id and the
updated state, or the revert reason. -/
def createGoal (s : DreamSaver) (sender : Nat) (title description : String)
    (targetAmount deadline now : Nat) : Except Err (Nat × DreamSaver) :=
  if ¬ targetAmount > 0 then .error .zeroTarget
  else if ¬ deadline > now then .error .pastDeadline
  else if ¬ title.length > 0 then .error .emptyTitle
  else
    let goalId := s.nextGoalId
    let g : SavingGoal :=
      { owner := sender, title := title, description := description,
        targetAmount := targetAmount, deadline := deadline,
        balance := 0, isWithdrawn := false }
    .ok (goalId,
      { goals := fun i => if i = goalId then g else s.goals i,
        ownerGoals := fun o => if o = sender then s.ownerGoals sender ++ [goalId] else s.ownerGoals o,
        nextGoalId := goalId + 1,
        log := s.log ++ [.GoalCreated goalId sender targetAmount deadline] })

/-- Contract function `deposit(goalId)` with attached value `amount`, called by `sender`.
Returns the new balance (the payload of the `Deposited` event) and the
updated state, or the revert reason. -/
def deposit (s : DreamSaver) (sender goalId amount : Nat) :
    Except Err (Nat × DreamSaver) :=
  if ¬ goalExists s goalId then .error .goalNotFound
  else if ¬ amount > 0 then .error .zeroAmount
  else if (s.goals goalId).isWithdrawn then .error .alreadyWithdrawn
  else
    let newBalance := (s.goals goalId).balance + amount
    .ok (newBalance,
      { s with
        goals := fun i => if i = goalId then { s.goals goalId with balance := newBalance } else s.goals i,
        log := s.log ++ [.Deposited goalId sender amount newBalance] })

/-- The `require` chain of `withdraw`, in source order; returns the amount
to disburse (the balance) on success. -/
def withdrawChecks (s : DreamSaver) (sender goalId now : Nat) : Except Err Nat :=
  if ¬ goalExists s goalId then .error .goalNotFound
  else if ¬ sender = (s.goals goalId).owner then .error .notOwner
  else if (s.goals goalId).isWithdrawn then .error .alreadyWithdrawn
  else
    let goal := s.goals goalId
    let deadlinePassed : Bool := now ≥ goal.deadline
    let targetReached : Bool := goal.balance ≥ goal.targetAmount
    if ¬ (deadlinePassed || targetReached) then .error .notEligible
    else if ¬ goal.balance > 0 then .error .zeroBalance
    else .ok goal.balance

/-- The statements `goal.isWithdrawn = true; goal.balance = 0;` — the state mutation
performed before the external call. -/
def finalizeGoal (s : DreamSaver) (goalId : Nat) : DreamSaver :=
  { s with goals := fun i =>
      if i = goalId then { s.goals goalId with isWithdrawn := true, balance := 0 }
      else s.goals i }

/-- The statement `emit Withdrawn(goalId, msg.sender, amount)`. -/
def emitWithdrawn (s : DreamSaver) (goalId recipient amount : Nat) : DreamSaver :=
  { s with log := s.log ++ [.Withdrawn goalId recipient amount] }

/-- Contract function `withdraw(goalId)` called by `sender` at time `now`, with the external
low-level call modelled by `transfer`. On success returns the disbursed
amount and the final state; `require(success)` failing is
`Err.transferFailed` (the transaction reverts, so no state is returned). -/
def withdraw (transfer : Nat → Nat → DreamSaver → Bool × DreamSaver)
    (s : DreamSaver) (sender goalId now : Nat) : Except Err (Nat × DreamSaver) :=
  match withdrawChecks s sender goalId now with
  | .error e => .error e
  | .ok amount =>
    let s1 := finalizeGoal s goalId
    match transfer sender amount s1 with
    | (true, s2) => .ok (amount, emitWithdrawn s2 goalId sender amount)
    | (false, _) => .error .transferFailed

/-- Contract function `getGoal(goalId)`. -/
def getGoal (s : DreamSaver) (goalId : Nat) : Except Err SavingGoal :=
  if goalExists s goalId then .ok (s.goals goalId) else .error .goalNotFound

/-- Contract function `getGoalsByOwner(owner)` — read-only, never fails. -/
def getGoalsByOwner (s : DreamSaver) (owner : Nat) : List Nat :=
  s.ownerGoals owner

/-- Contract function `getTotalGoals()`. -/
def getTotalGoals (s : DreamSaver) : Nat :=
  s.nextGoalId

/-- Contract function `canWithdraw(goalId)` at time `now` — read-only, never fails. -/
def canWithdraw (s : DreamSaver) (goalId now : Nat) : Bool :=
  if ¬ goalExists s goalId then false
  else
    let goal := s.goals goalId
    if goal.isWithdrawn then false
    else if goal.balance = 0 then false
    else
      let deadlinePassed : Bool := now ≥ goal.deadline
      let targetReached : Bool := goal.balance ≥ goal.targetAmount
      deadlinePassed || targetReached

/-!
## Transaction-level semantics

A transaction is one external call into the contract.  A reverted call
(`Except.error`) leaves the storage unchanged.  The external low-level call
inside `withdraw` is adversarial: it may reenter the contract with any
finite script of further calls, and may report failure, in which case the
EVM reverts the whole `withdraw` transaction — including the reentrant
calls' effects.
-/

mutual
/-- One external call into the contract, with its caller and timestamp.
A `withdraw` action carries the behaviour of the recipient's fallback:
a script of reentrant calls plus the success flag of the low-level call. -/
inductive Tx where
  | create (sender : Nat) (title description : String) (targetAmount deadline now : Nat)
  | deposit (sender goalId amount : Nat)
  | withdraw (sender goalId now : Nat) (reentry : TxList) (success : Bool)

/-- A finite script of calls (the reentrant behaviour of a recipient). -/
inductive TxList where
  | nil
  | cons (a : Tx) (rest : TxList)
end

mutual
/-- Run one transaction; a reverted call leaves the state unchanged. -/
def exec (s : DreamSaver) : Tx → DreamSaver
  | .create sender title description targetAmount deadline now =>
    match createGoal s sender title description targetAmount deadline now with
    | .ok (_, s') => s'
    | .error _ => s
  | .deposit sender goalId amount =>
    match deposit s sender goalId amount with
    | .ok (_, s') => s'
    | .error _ => s
  | .withdraw sender goalId now reentry success =>
    match withdrawChecks s sender goalId now with
    | .error _ => s
    | .ok amount =>
      if success then
        emitWithdrawn (execList (finalizeGoal s goalId) reentry) goalId sender amount
      else s

/-- Run a script of transactions in order. -/
def execList (s : DreamSaver) : TxList → DreamSaver
  | .nil => s
  | .cons a rest => execList (exec s a) rest
end

/-- The transfer behaviour of a recipient described by a script: the
reentrant calls run on the state the contract hands over, and the low-level
call reports `success`. -/
def scriptTransfer (reentry : TxList) (success : Bool) :
    Nat → Nat → DreamSaver → Bool × DreamSaver :=
  fun _ _ s => (success, execList s reentry)

/-- A transfer that accepts the funds and does nothing else. -/
def plainTransfer : Nat → Nat → DreamSaver → Bool × DreamSaver :=
  fun _ _ s => (true, s)

/-- States reachable from a freshly deployed contract by any finite
sequence of `createGoal` / `deposit` / `withdraw` transactions, each
`withdraw` with an arbitrary recipient behaviour. -/
def Reachable (s : DreamSaver) : Prop :=
  ∃ l : TxList, execList initState l = s

/-- Running `exec` on a `withdraw` action agrees with `withdraw` run with the
corresponding script transfer (reverted call ⇒ unchanged state). -/
theorem exec_withdraw_eq (s : DreamSaver) (sender goalId now : Nat)
    (reentry : TxList) (success : Bool) :
    exec s (.withdraw sender goalId now reentry success) =
      match withdraw (scriptTransfer reentry success) s sender goalId now with
      | .ok (_, s') => s'
      | .error _ => s := by
  unfold exec withdraw scriptTransfer
  cases h : withdrawChecks s sender goalId now with
  | error e => simp
  | ok amount => cases success <;> simp

/-!
## Inversion lemmas for the operations
-/

/-- Successful `createGoal`: all three validations passed, the returned id
is the current counter, and the new state is fully determined. -/
theorem createGoal_ok_elim {s : DreamSaver} {sender : Nat} {t d : String}
    {ta dl now id : Nat} {s' : DreamSaver}
    (h : createGoal s sender t d ta dl now = .ok (id, s')) :
    0 < ta ∧ now < dl ∧ 0 < t.length ∧ id = s.nextGoalId ∧
    s' = { goals := fun i => if i = s.nextGoalId then
             { owner := sender, title := t, description := d,
               targetAmount := ta, deadline := dl, balance := 0,
               isWithdrawn := false } else s.goals i,
           ownerGoals := fun o => if o = sender then
             s.ownerGoals sender ++ [s.nextGoalId] else s.ownerGoals o,
           nextGoalId := s.nextGoalId + 1,
           log := s.log ++ [.GoalCreated s.nextGoalId sender ta dl] } := by
  unfold createGoal at h
  split at h
  · exact absurd h (by simp)
  split at h
  · exact absurd h (by simp)
  split at h
  · exact absurd h (by simp)
  rename_i hta hdl ht
  injection h with h
  injection h with h1 h2
  exact ⟨by omega, by omega, by omega, h1.symm, h2.symm⟩

/-- Successful `deposit`: the goal exists, the amount is positive, the goal
is not withdrawn, the returned balance is old balance + amount, and the new
state is fully determined. -/
theorem deposit_ok_elim {s : DreamSaver} {sender goalId amount nb : Nat}
    {s' : DreamSaver}
    (h : deposit s sender goalId amount = .ok (nb, s')) :
    goalId < s.nextGoalId ∧ 0 < amount ∧
    (s.goals goalId).isWithdrawn = false ∧
    nb = (s.goals goalId).balance + amount ∧
    s' = { s with
           goals := fun i => if i = goalId then
             { s.goals goalId with balance := (s.goals goalId).balance + amount }
             else s.goals i,
           log := s.log ++ [.Deposited goalId sender amount ((s.goals goalId).balance + amount)] } := by
  unfold deposit at h
  split at h
  · exact absurd h (by simp)
  split at h
  · exact absurd h (by simp)
  split at h
  · exact absurd h (by simp)
  rename_i hex hpos hw
  injection h with h
  injection h with h1 h2
  refine ⟨?_, by omega, by simpa using hw, h1.symm, h2.symm⟩
  simpa [goalExists] using hex

/-- The `require` chain of `withdraw` succeeds exactly when: the goal
exists, the caller is the owner, the goal is not withdrawn, the deadline
has passed or the target is reached, and the balance is positive; the
returned amount is the balance. -/
theorem withdrawChecks_ok_elim {s : DreamSaver} {sender goalId now amount : Nat}
    (h : withdrawChecks s sender goalId now = .ok amount) :
    goalId < s.nextGoalId ∧ sender = (s.goals goalId).owner ∧
    (s.goals goalId).isWithdrawn = false ∧
    ((s.goals goalId).deadline ≤ now ∨
      (s.goals goalId).targetAmount ≤ (s.goals goalId).balance) ∧
    0 < (s.goals goalId).balance ∧ amount = (s.goals goalId).balance := by
  unfold withdrawChecks at h
  split at h
  · exact absurd h (by simp)
  split at h
  · exact absurd h (by simp)
  split at h
  · exact absurd h (by simp)
  simp only [] at h
  split at h
  · exact absurd h (by simp)
  split at h
  · exact absurd h (by simp)
  rename_i hex hown hw helig hbal
  injection h with h
  refine ⟨by simpa [goalExists] using hex, by simpa using hown,
    by simpa using hw, ?_, by omega, h.symm⟩
  simp only [Bool.not_eq_true, Bool.or_eq_false_iff] at helig
  rcases Decidable.em ((s.goals goalId).deadline ≤ now) with hd | hd
  · exact Or.inl hd
  rcases Decidable.em ((s.goals goalId).targetAmount ≤ (s.goals goalId).balance) with ht | ht
  · exact Or.inr ht
  exfalso
  exact helig (by simp [ge_iff_le, hd, ht])

/-!
## Persistence of the withdrawn state
-/

/-- A goal that exists, is withdrawn and has zero balance. No transaction
ever changes any of the three facts. -/
def GoalFrozen (s : DreamSaver) (g : Nat) : Prop :=
  g < s.nextGoalId ∧ (s.goals g).isWithdrawn = true ∧ (s.goals g).balance = 0

theorem goalFrozen_create {s : DreamSaver} {g : Nat} {sender : Nat}
    {t d : String} {ta dl now id : Nat} {s' : DreamSaver}
    (h : createGoal s sender t d ta dl now = .ok (id, s'))
    (hf : GoalFrozen s g) : GoalFrozen s' g := by
  obtain ⟨-, -, -, -, hs'⟩ := createGoal_ok_elim h
  obtain ⟨hlt, hw, hb⟩ := hf
  subst hs'
  refine ⟨Nat.lt_succ_of_lt hlt, ?_, ?_⟩ <;>
    simp [if_neg (Nat.ne_of_lt hlt), hw, hb]

theorem goalFrozen_deposit {s : DreamSaver} {g : Nat} {sender goalId amount nb : Nat}
    {s' : DreamSaver}
    (h : deposit s sender goalId amount = .ok (nb, s'))
    (hf : GoalFrozen s g) : GoalFrozen s' g := by
  obtain ⟨-, -, hnw, -, hs'⟩ := deposit_ok_elim h
  obtain ⟨hlt, hw, hb⟩ := hf
  have hne : g ≠ goalId := fun he => by rw [he, hnw] at hw; cases hw
  subst hs'
  exact ⟨hlt, by simp [if_neg hne, hw], by simp [if_neg hne, hb]⟩

theorem goalFrozen_finalize {s : DreamSaver} {g goalId : Nat}
    (hf : GoalFrozen s g) : GoalFrozen (finalizeGoal s goalId) g := by
  obtain ⟨hlt, hw, hb⟩ := hf
  unfold finalizeGoal
  rcases Decidable.em (g = goalId) with he | he
  · exact ⟨hlt, by simp [he], by simp [he]⟩
  · exact ⟨hlt, by simp [if_neg he, hw], by simp [if_neg he, hb]⟩

theorem goalFrozen_emit {s : DreamSaver} {g a b c : Nat}
    (hf : GoalFrozen s g) : GoalFrozen (emitWithdrawn s a b c) g := hf

mutual
theorem goalFrozen_exec : ∀ (a : Tx) (s : DreamSaver) (g : Nat),
    GoalFrozen s g → GoalFrozen (exec s a) g
  | .create sender t d ta dl now, s, g, hf => by
    simp only [exec]
    cases h : createGoal s sender t d ta dl now with
    | error e => exact hf
    | ok p =>
      obtain ⟨id, s'⟩ := p
      exact goalFrozen_create h hf
  | .deposit sender goalId amount, s, g, hf => by
    simp only [exec]
    cases h : deposit s sender goalId amount with
    | error e => exact hf
    | ok p =>
      obtain ⟨nb, s'⟩ := p
      exact goalFrozen_deposit h hf
  | .withdraw sender goalId now reentry success, s, g, hf => by
    simp only [exec]
    cases h : withdrawChecks s sender goalId now with
    | error e => exact hf
    | ok amount =>
      cases success with
      | false => exact hf
      | true =>
        exact goalFrozen_emit
          (goalFrozen_execList reentry _ g (goalFrozen_finalize hf))
theorem goalFrozen_execList : ∀ (l : TxList) (s : DreamSaver) (g : Nat),
    GoalFrozen s g → GoalFrozen (execList s l) g
  | .nil, s, g, hf => by simpa only [execList] using hf
  | .cons a rest, s, g, hf => by
    simp only [execList]
    exact goalFrozen_execList rest (exec s a) g (goalFrozen_exec a s g hf)
end

/-!
## The ledger invariant
-/

/-- The ledger invariant: every withdrawn goal exists and has zero balance,
and the owner-index lists, for each owner, exactly the existing goal ids
owned by that owner, in creation (= ascending id) order. -/
def LedgerInv (s : DreamSaver) : Prop :=
  (∀ g, (s.goals g).isWithdrawn = true → g < s.nextGoalId ∧ (s.goals g).balance = 0)
  ∧ (∀ o, s.ownerGoals o =
      (List.range s.nextGoalId).filter (fun g => (s.goals g).owner == o))

theorem ledgerInv_initState : LedgerInv initState := by
  constructor
  · intro g h
    exact absurd h (by simp [initState, SavingGoal.defaultGoal])
  · intro o
    simp [initState]

theorem ledgerInv_create {s : DreamSaver} {sender : Nat} {t d : String}
    {ta dl now id : Nat} {s' : DreamSaver}
    (h : createGoal s sender t d ta dl now = .ok (id, s'))
    (hinv : LedgerInv s) : LedgerInv s' := by
  obtain ⟨-, -, -, -, hs'⟩ := createGoal_ok_elim h
  obtain ⟨h1, h2⟩ := hinv
  subst hs'
  constructor
  · intro g hw
    rcases Decidable.em (g = s.nextGoalId) with he | he
    · rw [he] at hw
      exact absurd hw (by simp)
    · simp only [if_neg he] at hw ⊢
      obtain ⟨hlt, hb⟩ := h1 g hw
      exact ⟨Nat.lt_succ_of_lt hlt, hb⟩
  · intro o
    have hrange : List.range (s.nextGoalId + 1) = List.range s.nextGoalId ++ [s.nextGoalId] := by
      rw [List.range_succ]
    simp only [hrange, List.filter_append]
    have hfilter :
        (List.range s.nextGoalId).filter
            (fun g => ((if g = s.nextGoalId then
              ({ owner := sender, title := t, description := d,
                 targetAmount := ta, deadline := dl, balance := 0,
                 isWithdrawn := false } : SavingGoal) else s.goals g)).owner == o)
          = (List.range s.nextGoalId).filter (fun g => (s.goals g).owner == o) := by
      refine List.filter_congr ?_
      intro g hg
      rw [List.mem_range] at hg
      simp [if_neg (Nat.ne_of_lt hg)]
    rcases Decidable.em (o = sender) with he | he
    · subst he
      simp only [if_pos rfl, hfilter, ← h2 o]
      simp
    · have hne : ¬ (sender == o) = true := by
        simp only [beq_iff_eq]
        exact fun hx => he hx.symm
      simp only [if_neg (fun hx : o = sender => he hx), hfilter, ← h2 o]
      simp [hne]

theorem ledgerInv_deposit {s : DreamSaver} {sender goalId amount nb : Nat}
    {s' : DreamSaver}
    (h : deposit s sender goalId amount = .ok (nb, s'))
    (hinv : LedgerInv s) : LedgerInv s' := by
  obtain ⟨hex, -, hnw, -, hs'⟩ := deposit_ok_elim h
  obtain ⟨h1, h2⟩ := hinv
  subst hs'
  constructor
  · intro g hw
    rcases Decidable.em (g = goalId) with he | he
    · subst he
      simp only [if_pos rfl] at hw
      exact absurd hw (by simp [hnw])
    · simp only [if_neg he] at hw ⊢
      exact h1 g hw
  · intro o
    rw [h2 o]
    refine (List.filter_congr ?_).symm
    intro g hg
    rcases Decidable.em (g = goalId) with he | he
    · subst he
      simp
    · simp [if_neg he]

theorem ledgerInv_finalize {s : DreamSaver} {goalId : Nat}
    (hex : goalId < s.nextGoalId) (hinv : LedgerInv s) : LedgerInv (finalizeGoal s goalId) := by
  obtain ⟨h1, h2⟩ := hinv
  constructor
  · intro g hw
    rcases Decidable.em (g = goalId) with he | he
    · subst he
      exact ⟨hex, by simp [finalizeGoal]⟩
    · simp only [finalizeGoal] at hw ⊢
      simp only [if_neg he] at hw ⊢
      exact h1 g hw
  · intro o
    rw [show (finalizeGoal s goalId).ownerGoals = s.ownerGoals from rfl, h2 o]
    refine (List.filter_congr ?_).symm
    intro g hg
    rcases Decidable.em (g = goalId) with he | he
    · subst he
      simp [finalizeGoal]
    · simp [finalizeGoal, if_neg he]

theorem ledgerInv_emit {s : DreamSaver} {a b c : Nat}
    (hinv : LedgerInv s) : LedgerInv (emitWithdrawn s a b c) := hinv

mutual
theorem ledgerInv_exec : ∀ (a : Tx) (s : DreamSaver), LedgerInv s → LedgerInv (exec s a)
  | .create sender t d ta dl now, s, hinv => by
    simp only [exec]
    cases h : createGoal s sender t d ta dl now with
    | error e => exact hinv
    | ok p =>
      obtain ⟨id, s'⟩ := p
      exact ledgerInv_create h hinv
  | .deposit sender goalId amount, s, hinv => by
    simp only [exec]
    cases h : deposit s sender goalId amount with
    | error e => exact hinv
    | ok p =>
      obtain ⟨nb, s'⟩ := p
      exact ledgerInv_deposit h hinv
  | .withdraw sender goalId now reentry success, s, hinv => by
    simp only [exec]
    cases h : withdrawChecks s sender goalId now with
    | error e => exact hinv
    | ok amount =>
      cases success with
      | false => exact hinv
      | true =>
        obtain ⟨hex, -, -, -, -, -⟩ := withdrawChecks_ok_elim h
        exact ledgerInv_emit (ledgerInv_execList reentry _ (ledgerInv_finalize hex hinv))
theorem ledgerInv_execList : ∀ (l : TxList) (s : DreamSaver), LedgerInv s → LedgerInv (execList s l)
  | .nil, s, hinv => by simpa only [execList] using hinv
  | .cons a rest, s, hinv => by
    simp only [execList]
    exact ledgerInv_execList rest (exec s a) (ledgerInv_exec a s hinv)
end

/-- Every reachable state satisfies the ledger invariant. -/
theorem ledgerInv_reachable {s : DreamSaver} (h : Reachable s) : LedgerInv s := by
  obtain ⟨l, hl⟩ := h
  exact hl ▸ ledgerInv_execList l initState ledgerInv_initState

/-!
## Further operation lemmas
-/

/-- Forward form of a successful `deposit`. -/
theorem deposit_ok_of {s : DreamSaver} {sender goalId amount : Nat}
    (hex : goalExists s goalId = true)
    (hw : (s.goals goalId).isWithdrawn = false) (hpos : 0 < amount) :
    deposit s sender goalId amount = .ok ((s.goals goalId).balance + amount,
      { s with
        goals := fun i => if i = goalId then
          { s.goals goalId with balance := (s.goals goalId).balance + amount }
          else s.goals i,
        log := s.log ++ [.Deposited goalId sender amount
          ((s.goals goalId).balance + amount)] }) := by
  unfold deposit
  rw [if_neg (not_not_intro hex), if_neg (not_not_intro hpos),
    if_neg (by simp [hw])]

/-- Successful `withdraw`: the checks passed, the transfer was invoked on
the finalized state and succeeded, and the event was emitted afterwards. -/
theorem withdraw_ok_elim {transfer : Nat → Nat → DreamSaver → Bool × DreamSaver}
    {s : DreamSaver} {sender goalId now amount : Nat} {s' : DreamSaver}
    (h : withdraw transfer s sender goalId now = .ok (amount, s')) :
    withdrawChecks s sender goalId now = .ok amount ∧
    ∃ s2, transfer sender amount (finalizeGoal s goalId) = (true, s2) ∧
      s' = emitWithdrawn s2 goalId sender amount := by
  unfold withdraw at h
  cases hc : withdrawChecks s sender goalId now with
  | error e => rw [hc] at h; exact absurd h (by simp)
  | ok amt =>
    rw [hc] at h
    simp only [] at h
    cases ht : transfer sender amt (finalizeGoal s goalId) with
    | mk b s2 =>
      rw [ht] at h
      cases b with
      | false => exact absurd h (by simp)
      | true =>
        injection h with h
        injection h with h1 h2
        subst h1
        exact ⟨rfl, s2, ht, h2.symm⟩

/-- On a goal whose `isWithdrawn` flag is set, `withdraw` always reverts,
whoever calls it, whatever the time and the transfer behaviour. -/
theorem withdraw_on_withdrawn {s : DreamSaver} {goalId : Nat}
    (hw : (s.goals goalId).isWithdrawn = true)
    (transfer : Nat → Nat → DreamSaver → Bool × DreamSaver)
    (sender now : Nat) :
    ∃ e, withdraw transfer s sender goalId now = .error e := by
  unfold withdraw withdrawChecks
  by_cases hex : goalExists s goalId = true
  · by_cases hown : sender = (s.goals goalId).owner
    · exact ⟨.alreadyWithdrawn, by simp [hex, hown, hw]⟩
    · exact ⟨.notOwner, by simp [hex, hown]⟩
  · exact ⟨.goalNotFound, by simp [hex]⟩

/-- On a goal whose `isWithdrawn` flag is set, `deposit` always reverts. -/
theorem deposit_on_withdrawn {s : DreamSaver} {goalId : Nat}
    (hw : (s.goals goalId).isWithdrawn = true) (sender amount : Nat) :
    ∃ e, deposit s sender goalId amount = .error e := by
  unfold deposit
  by_cases hex : goalExists s goalId = true
  · by_cases hpos : 0 < amount
    · exact ⟨.alreadyWithdrawn, by simp [hex, hpos, hw]⟩
    · exact ⟨.zeroAmount, by simp [hex, hpos]⟩
  · exact ⟨.goalNotFound, by simp [hex]⟩

/-!
## Sample states used by the concrete witnesses
-/

/-- One goal created by address 1: target 5 wei, deadline 100. -/
def s0 : DreamSaver := exec initState (.create 1 "Car" "Tesla" 5 100 0)

/-- Address 2 then deposits 5 wei into goal 0, reaching the target. -/
def sDep : DreamSaver := exec s0 (.deposit 2 0 5)

/-- Goal 0 of `sDep` after a successful withdrawal by its owner. -/
def sWd : DreamSaver := exec sDep (.withdraw 1 0 150 .nil true)

/-- A copy of the goal record with the `deadline` and `targetAmount` fields
replaced — used to state that `deposit` never inspects those fields. -/
def setGoalDeadlineTarget (s : DreamSaver) (goalId dl ta : Nat) : DreamSaver :=
  { s with goals := fun i =>
      if i = goalId then { s.goals goalId with deadline := dl, targetAmount := ta }
      else s.goals i }

/-!
## The claims
-/

/-- Claim C6: for every valid input (non-empty title, positive target,
deadline strictly after the current time) `createGoal` allocates the next
sequential id — equal to `getTotalGoals`, the count of ids ever allocated,
a sequence starting at 0 — which never existed before, stores the goal with
zero balance, `isWithdrawn = false`, the caller as owner and the supplied
fields, appends the id to the caller's owner-index and returns it; on any
invalid input it fails with the validation error naming the failed
precondition and the state (hence `getTotalGoals`) is unchanged. -/
theorem createGoal_correct (s : DreamSaver) (sender : Nat) (t d : String)
    (ta dl now : Nat) :
    (0 < ta → now < dl → 0 < t.length →
      createGoal s sender t d ta dl now = .ok (getTotalGoals s,
        { goals := fun i => if i = s.nextGoalId then
            { owner := sender, title := t, description := d,
              targetAmount := ta, deadline := dl, balance := 0,
              isWithdrawn := false } else s.goals i,
          ownerGoals := fun o => if o = sender then
            s.ownerGoals sender ++ [s.nextGoalId] else s.ownerGoals o,
          nextGoalId := s.nextGoalId + 1,
          log := s.log ++ [.GoalCreated s.nextGoalId sender ta dl] })
      ∧ goalExists s (getTotalGoals s) = false)
    ∧ getTotalGoals initState = 0
    ∧ (¬ 0 < ta → createGoal s sender t d ta dl now = .error .zeroTarget)
    ∧ (0 < ta → ¬ now < dl →
        createGoal s sender t d ta dl now = .error .pastDeadline)
    ∧ (0 < ta → now < dl → ¬ 0 < t.length →
        createGoal s sender t d ta dl now = .error .emptyTitle)
    ∧ (∀ e, createGoal s sender t d ta dl now = .error e →
        exec s (.create sender t d ta dl now) = s) := by
  refine ⟨?_, rfl, ?_, ?_, ?_, ?_⟩
  · intro hta hdl ht
    constructor
    · unfold createGoal
      rw [if_neg (not_not_intro hta), if_neg (not_not_intro hdl),
        if_neg (not_not_intro ht)]
      rfl
    · simp [goalExists, getTotalGoals]
  · intro hta
    unfold createGoal
    rw [if_pos hta]
  · intro hta hdl
    unfold createGoal
    rw [if_neg (not_not_intro hta), if_pos hdl]
  · intro hta hdl ht
    unfold createGoal
    rw [if_neg (not_not_intro hta), if_neg (not_not_intro hdl), if_pos ht]
  · intro e he
    simp only [exec, he]

/-- Witness for C6: both branches exercised at concrete inputs — a valid
creation from the empty ledger, and scenario D (`targetAmount = 0`). -/
theorem createGoal_correct_witness :
    (0 < 5 ∧ (0:Nat) < 100 ∧ 0 < "Car".length) ∧ ¬ 0 < (0:Nat) ∧
    createGoal initState 1 "Car" "Tesla" 5 100 0 = .ok (getTotalGoals initState,
      { goals := fun i => if i = initState.nextGoalId then
          { owner := 1, title := "Car", description := "Tesla",
            targetAmount := 5, deadline := 100, balance := 0,
            isWithdrawn := false } else initState.goals i,
        ownerGoals := fun o => if o = 1 then
          initState.ownerGoals 1 ++ [initState.nextGoalId] else initState.ownerGoals o,
        nextGoalId := initState.nextGoalId + 1,
        log := initState.log ++ [.GoalCreated initState.nextGoalId 1 5 100] }) ∧
    createGoal initState 1 "Car" "Tesla" 0 100 0 = .error .zeroTarget :=
  ⟨⟨by decide, by decide, by decide⟩, by decide,
    ((createGoal_correct initState 1 "Car" "Tesla" 5 100 0).1
      (by decide) (by decide) (by decide)).1,
    (createGoal_correct initState 1 "Car" "Tesla" 0 100 0).2.2.1 (by decide)⟩

/-- Claim C8: for every existing, not-yet-withdrawn goal and positive
amount, `deposit` adds exactly the amount to that goal's balance and
returns the new balance; on a missing goal, a zero amount or a withdrawn
goal it rejects with no state change. -/
theorem deposit_correct (s : DreamSaver) (sender goalId amount : Nat) :
    (goalExists s goalId = true → (s.goals goalId).isWithdrawn = false →
      0 < amount →
      deposit s sender goalId amount = .ok ((s.goals goalId).balance + amount,
        { s with
          goals := fun i => if i = goalId then
            { s.goals goalId with balance := (s.goals goalId).balance + amount }
            else s.goals i,
          log := s.log ++ [.Deposited goalId sender amount
            ((s.goals goalId).balance + amount)] }))
    ∧ (∀ nb s', deposit s sender goalId amount = .ok (nb, s') →
        nb = (s.goals goalId).balance + amount ∧
        (s'.goals goalId).balance = (s.goals goalId).balance + amount ∧
        (∀ g, g ≠ goalId → s'.goals g = s.goals g) ∧
        s'.ownerGoals = s.ownerGoals ∧ s'.nextGoalId = s.nextGoalId)
    ∧ (goalExists s goalId = false →
        deposit s sender goalId amount = .error .goalNotFound)
    ∧ (goalExists s goalId = true → amount = 0 →
        deposit s sender goalId amount = .error .zeroAmount)
    ∧ (goalExists s goalId = true → 0 < amount →
        (s.goals goalId).isWithdrawn = true →
        deposit s sender goalId amount = .error .alreadyWithdrawn)
    ∧ (∀ e, deposit s sender goalId amount = .error e →
        exec s (.deposit sender goalId amount) = s) := by
  refine ⟨?_, ?_, ?_, ?_, ?_, ?_⟩
  · exact fun hex hw hpos => deposit_ok_of hex hw hpos
  · intro nb s' h
    obtain ⟨-, -, -, hnb, hs'⟩ := deposit_ok_elim h
    subst hs'
    refine ⟨hnb, by simp, fun g hg => by simp [if_neg hg], rfl, rfl⟩
  · intro hex
    unfold deposit
    rw [if_pos (by simp [hex])]
  · intro hex h0
    unfold deposit
    rw [if_neg (not_not_intro hex), if_pos (by omega)]
  · intro hex hpos hw
    unfold deposit
    rw [if_neg (not_not_intro hex), if_neg (not_not_intro hpos), if_pos hw]
  · intro e he
    simp only [exec, he]

/-- Witness for C8: a successful 5-wei deposit into goal 0 of `s0`, and a
rejected deposit into the missing goal 7. -/
theorem deposit_correct_witness :
    (goalExists s0 0 = true ∧ (s0.goals 0).isWithdrawn = false ∧ 0 < 5) ∧
    deposit s0 2 0 5 = .ok ((s0.goals 0).balance + 5,
      { s0 with
        goals := fun i => if i = 0 then
          { s0.goals 0 with balance := (s0.goals 0).balance + 5 }
          else s0.goals i,
        log := s0.log ++ [.Deposited 0 2 5 ((s0.goals 0).balance + 5)] }) ∧
    goalExists s0 7 = false ∧
    deposit s0 2 7 5 = .error .goalNotFound :=
  ⟨⟨by decide, by decide, by decide⟩,
    (deposit_correct s0 2 0 5).1 (by decide) (by decide) (by decide),
    by decide,
    (deposit_correct s0 2 7 5).2.2.1 (by decide)⟩

/-- Transaction form of a successful deposit. -/
theorem exec_deposit_ok {s : DreamSaver} {p goalId a : Nat}
    (hex : goalExists s goalId = true)
    (hw : (s.goals goalId).isWithdrawn = false) (ha : 0 < a) :
    exec s (.deposit p goalId a) =
      { s with
        goals := fun i => if i = goalId then
          { s.goals goalId with balance := (s.goals goalId).balance + a }
          else s.goals i,
        log := s.log ++ [.Deposited goalId p a ((s.goals goalId).balance + a)] } := by
  simp only [exec, deposit_ok_of hex hw ha]

/-- Claim C9: on a not-yet-withdrawn existing goal, depositing `a` then `b`
and depositing `b` then `a` both end with the original balance plus
`a + b`, whatever the two depositor identities are. -/
theorem deposit_comm (s : DreamSaver) (p q goalId a b : Nat)
    (hex : goalExists s goalId = true)
    (hw : (s.goals goalId).isWithdrawn = false)
    (ha : 0 < a) (hb : 0 < b) :
    ((exec (exec s (.deposit p goalId a)) (.deposit q goalId b)).goals goalId).balance
      = (s.goals goalId).balance + (a + b)
    ∧ ((exec (exec s (.deposit p goalId a)) (.deposit q goalId b)).goals goalId).balance
      = ((exec (exec s (.deposit q goalId b)) (.deposit p goalId a)).goals goalId).balance := by
  have step : ∀ (x y c d : Nat), 0 < c → 0 < d →
      ((exec (exec s (.deposit x goalId c)) (.deposit y goalId d)).goals goalId).balance
        = (s.goals goalId).balance + c + d := by
    intro x y c d hc hd
    rw [exec_deposit_ok hex hw hc]
    rw [exec_deposit_ok (by simpa [goalExists] using hex) (by simp [hw]) hd]
    simp
  have h1 := step p q a b ha hb
  have h2 := step q p b a hb ha
  constructor
  · omega
  · omega

/-- Witness for C9: two deposits of 3 and 4 wei into goal 0 of `s0`. -/
theorem deposit_comm_witness :
    (goalExists s0 0 = true ∧ (s0.goals 0).isWithdrawn = false ∧
      (0:Nat) < 3 ∧ (0:Nat) < 4) ∧
    ((exec (exec s0 (.deposit 2 0 3)) (.deposit 3 0 4)).goals 0).balance
      = (s0.goals 0).balance + (3 + 4) ∧
    ((exec (exec s0 (.deposit 2 0 3)) (.deposit 3 0 4)).goals 0).balance
      = ((exec (exec s0 (.deposit 3 0 4)) (.deposit 2 0 3)).goals 0).balance :=
  ⟨⟨by decide, by decide, by decide, by decide⟩,
    (deposit_comm s0 2 3 0 3 4 (by decide) (by decide) (by decide) (by decide)).1,
    (deposit_comm s0 2 3 0 3 4 (by decide) (by decide) (by decide) (by decide)).2⟩

/-- Claim C10: `deposit` never inspects the goal's `deadline` or
`targetAmount`: it succeeds on any existing not-withdrawn goal with a
positive amount (no hypothesis on the clock, the deadline or the target,
so the balance can grow past the target without bound), and replacing the
two fields by arbitrary values changes the outcome of `deposit` only by
the same field replacement. -/
theorem deposit_ignores_deadline_target (s : DreamSaver)
    (sender goalId amount dl ta : Nat) :
    (goalExists s goalId = true → (s.goals goalId).isWithdrawn = false →
      0 < amount →
      ∃ s', deposit s sender goalId amount
        = .ok ((s.goals goalId).balance + amount, s'))
    ∧ deposit (setGoalDeadlineTarget s goalId dl ta) sender goalId amount
        = Except.map (fun r => (r.1, setGoalDeadlineTarget r.2 goalId dl ta))
            (deposit s sender goalId amount) := by
  constructor
  · intro hex hw hpos
    exact ⟨_, deposit_ok_of hex hw hpos⟩
  · have hexEq : goalExists (setGoalDeadlineTarget s goalId dl ta) goalId
        = goalExists s goalId := rfl
    by_cases hex : goalExists s goalId = true
    · by_cases hpos : 0 < amount
      · by_cases hw : (s.goals goalId).isWithdrawn = true
        · have hw' : ((setGoalDeadlineTarget s goalId dl ta).goals goalId).isWithdrawn = true := by
            simpa [setGoalDeadlineTarget] using hw
          unfold deposit
          rw [hexEq, if_neg (not_not_intro hex), if_neg (not_not_intro hex),
            if_neg (not_not_intro hpos), if_neg (not_not_intro hpos),
            if_pos hw, if_pos hw']
          rfl
        · have hwf : (s.goals goalId).isWithdrawn = false := by
            simpa using hw
          have hw' : ((setGoalDeadlineTarget s goalId dl ta).goals goalId).isWithdrawn = false := by
            simpa [setGoalDeadlineTarget] using hwf
          rw [deposit_ok_of hex hwf hpos,
            deposit_ok_of (by rw [hexEq]; exact hex) hw' hpos]
          simp only [Except.map, setGoalDeadlineTarget]
          simp only [Except.ok.injEq, Prod.mk.injEq]
          constructor
          · simp
          · simp only [DreamSaver.mk.injEq]
            refine ⟨?_, by simp, by simp, by simp⟩
            funext i
            by_cases hi : i = goalId
            · subst hi
              simp
            · simp [if_neg hi]
      · unfold deposit
        rw [hexEq, if_neg (not_not_intro hex), if_neg (not_not_intro hex),
          if_pos hpos, if_pos hpos]
        rfl
    · unfold deposit
      rw [hexEq, if_pos (by simp [hex]), if_pos (by simp [hex])]
      rfl

/-- Witness for C10: goal 0 of `sDep` already has balance 5 = target 5,
yet a further 10-wei deposit succeeds, pushing the balance past the
target. -/
theorem deposit_ignores_deadline_target_witness :
    (goalExists sDep 0 = true ∧ (sDep.goals 0).isWithdrawn = false ∧
      (0:Nat) < 10 ∧ (sDep.goals 0).targetAmount ≤ (sDep.goals 0).balance) ∧
    ∃ s', deposit sDep 3 0 10 = .ok ((sDep.goals 0).balance + 10, s') :=
  ⟨⟨by decide, by decide, by decide, by decide⟩,
    (deposit_ignores_deadline_target sDep 3 0 10 0 0).1
      (by decide) (by decide) (by decide)⟩

/-- Claim C2: the preconditions of `withdraw` are checked in the exact
source order, each with its own distinguishable failure reason:
goal exists, then caller is the owner, then not already withdrawn, then
deadline-or-target eligibility, then nonzero balance — so a zero-balance
goal is rejected (with `zeroBalance`) even when its deadline has passed. -/
theorem withdraw_check_order
    (transfer : Nat → Nat → DreamSaver → Bool × DreamSaver)
    (s : DreamSaver) (sender goalId now : Nat) :
    (goalExists s goalId = false →
      withdraw transfer s sender goalId now = .error .goalNotFound)
    ∧ (goalExists s goalId = true → sender ≠ (s.goals goalId).owner →
      withdraw transfer s sender goalId now = .error .notOwner)
    ∧ (goalExists s goalId = true → sender = (s.goals goalId).owner →
      (s.goals goalId).isWithdrawn = true →
      withdraw transfer s sender goalId now = .error .alreadyWithdrawn)
    ∧ (goalExists s goalId = true → sender = (s.goals goalId).owner →
      (s.goals goalId).isWithdrawn = false →
      ¬ (s.goals goalId).deadline ≤ now →
      ¬ (s.goals goalId).targetAmount ≤ (s.goals goalId).balance →
      withdraw transfer s sender goalId now = .error .notEligible)
    ∧ (goalExists s goalId = true → sender = (s.goals goalId).owner →
      (s.goals goalId).isWithdrawn = false →
      ((s.goals goalId).deadline ≤ now ∨
        (s.goals goalId).targetAmount ≤ (s.goals goalId).balance) →
      (s.goals goalId).balance = 0 →
      withdraw transfer s sender goalId now = .error .zeroBalance) := by
  refine ⟨?_, ?_, ?_, ?_, ?_⟩
  · intro hex
    unfold withdraw withdrawChecks
    rw [if_pos (by simp [hex])]
  · intro hex hown
    unfold withdraw withdrawChecks
    rw [if_neg (not_not_intro hex), if_pos hown]
  · intro hex hown hw
    unfold withdraw withdrawChecks
    rw [if_neg (not_not_intro hex), if_neg (not_not_intro hown), if_pos hw]
  · intro hex hown hw hd ht
    unfold withdraw withdrawChecks
    rw [if_neg (not_not_intro hex), if_neg (not_not_intro hown),
      if_neg (by simp [hw])]
    simp only []
    rw [if_pos (by simp [ge_iff_le, hd, ht])]
  · intro hex hown hw helig hbal
    unfold withdraw withdrawChecks
    rw [if_neg (not_not_intro hex), if_neg (not_not_intro hown),
      if_neg (by simp [hw])]
    simp only []
    rw [if_neg (by
        simp only [ge_iff_le, Bool.or_eq_true, decide_eq_true_eq, not_not, not_or, not_le]
        intro hc
        rcases helig with h | h
        · omega
        · omega),
      if_pos (by omega)]

/-- Witness for C2: goal 0 of `sWd` is already withdrawn, so its owner's
second withdrawal reverts with `alreadyWithdrawn`; and in `s0` (zero
balance, deadline 100 passed at time 150) withdrawal reverts with
`zeroBalance`. -/
theorem withdraw_check_order_witness :
    (goalExists sWd 0 = true ∧ (1:Nat) = (sWd.goals 0).owner ∧
      (sWd.goals 0).isWithdrawn = true) ∧
    withdraw plainTransfer sWd 1 0 200 = .error .alreadyWithdrawn ∧
    ((s0.goals 0).deadline ≤ 150 ∧ (s0.goals 0).balance = 0) ∧
    withdraw plainTransfer s0 1 0 150 = .error .zeroBalance :=
  ⟨⟨by decide, by decide, by decide⟩,
    (withdraw_check_order plainTransfer sWd 1 0 200).2.2.1
      (by decide) (by decide) (by decide),
    ⟨by decide, by decide⟩,
    (withdraw_check_order plainTransfer s0 1 0 150).2.2.2.2
      (by decide) (by decide) (by decide) (Or.inl (by decide)) (by decide)⟩

/-- Claim C3: `canWithdraw` is read-only and total (a pure `Bool`-valued
function), returns `false` when the goal is absent, withdrawn, or has zero
balance, and otherwise returns `true` exactly when the deadline has passed
or the target is reached — equivalently, it holds exactly when `withdraw`
called by the goal's owner with a succeeding transfer would succeed. -/
theorem canWithdraw_correct (s : DreamSaver) (goalId now : Nat) :
    (canWithdraw s goalId now = true ↔
      goalId < s.nextGoalId ∧ (s.goals goalId).isWithdrawn = false ∧
      0 < (s.goals goalId).balance ∧
      ((s.goals goalId).deadline ≤ now ∨
        (s.goals goalId).targetAmount ≤ (s.goals goalId).balance))
    ∧ (canWithdraw s goalId now = true ↔
      ∃ r, withdraw plainTransfer s ((s.goals goalId).owner) goalId now = .ok r) := by
  have hmain : canWithdraw s goalId now = true ↔
      goalId < s.nextGoalId ∧ (s.goals goalId).isWithdrawn = false ∧
      0 < (s.goals goalId).balance ∧
      ((s.goals goalId).deadline ≤ now ∨
        (s.goals goalId).targetAmount ≤ (s.goals goalId).balance) := by
    unfold canWithdraw
    by_cases hex : goalExists s goalId = true
    · rw [if_neg (not_not_intro hex)]
      simp only [goalExists, decide_eq_true_eq] at hex
      by_cases hw : (s.goals goalId).isWithdrawn = true
      · rw [if_pos hw]
        simp [hw]
      · have hwf : (s.goals goalId).isWithdrawn = false := by simpa using hw
        rw [if_neg hw]
        by_cases hb : (s.goals goalId).balance = 0
        · rw [if_pos hb]
          simp [hb]
        · rw [if_neg hb]
          simp [ge_iff_le, hex, hwf, Nat.pos_of_ne_zero hb]
    · rw [if_pos hex]
      simp only [goalExists, decide_eq_true_eq] at hex
      simp [hex]
  refine ⟨hmain, hmain.trans ?_⟩
  constructor
  · intro hc
    obtain ⟨hex, hwf, hb, helig⟩ := hc
    have hchecks : withdrawChecks s ((s.goals goalId).owner) goalId now
        = .ok ((s.goals goalId).balance) := by
      unfold withdrawChecks
      rw [if_neg (not_not_intro (by simp [goalExists, hex])),
        if_neg (not_not_intro rfl), if_neg (by simp [hwf])]
      simp only []
      rw [if_neg (by
          simp only [ge_iff_le, Bool.or_eq_true, decide_eq_true_eq, not_not]
          exact helig),
        if_neg (not_not_intro hb)]
    refine ⟨((s.goals goalId).balance,
      emitWithdrawn (finalizeGoal s goalId) goalId ((s.goals goalId).owner)
        ((s.goals goalId).balance)), ?_⟩
    unfold withdraw
    rw [hchecks]
    rfl
  · rintro ⟨⟨amt, s'⟩, h⟩
    obtain ⟨hchecks, -⟩ := withdraw_ok_elim h
    obtain ⟨h1, -, h3, h4, h5, -⟩ := withdrawChecks_ok_elim hchecks
    exact ⟨h1, h3, h5, h4⟩

/-- Witness for C3: in `sDep` goal 0 has reached its target, so
`canWithdraw` is true and the owner's withdrawal succeeds; in `s0` the
balance is zero and `canWithdraw` is false. -/
theorem canWithdraw_correct_witness :
    canWithdraw sDep 0 0 = true ∧
    (∃ r, withdraw plainTransfer sDep ((sDep.goals 0).owner) 0 0 = .ok r) ∧
    canWithdraw s0 0 150 = false :=
  ⟨by decide, (canWithdraw_correct sDep 0 0).2.mp (by decide), by decide⟩

/-- Claim C5: if the external transfer invoked by `withdraw` fails, the
whole operation fails with `transferFailed` and — at the transaction
level — no partial effect persists: the state, including the goal's flag
and balance and the event log, is exactly as before the call; the
`Withdrawn` event exists only on the success path, appended after the
transfer returned `true`. -/
theorem withdraw_transfer_fail_atomic (s : DreamSaver) (sender goalId now : Nat) :
    (∀ reentry : TxList, exec s (.withdraw sender goalId now reentry false) = s)
    ∧ (∀ (transfer : Nat → Nat → DreamSaver → Bool × DreamSaver) amount,
        withdrawChecks s sender goalId now = .ok amount →
        (transfer sender amount (finalizeGoal s goalId)).1 = false →
        withdraw transfer s sender goalId now = .error .transferFailed)
    ∧ (∀ (transfer : Nat → Nat → DreamSaver → Bool × DreamSaver) amount s',
        withdraw transfer s sender goalId now = .ok (amount, s') →
        ∃ s2, transfer sender amount (finalizeGoal s goalId) = (true, s2) ∧
          s' = emitWithdrawn s2 goalId sender amount ∧
          s'.log = s2.log ++ [Event.Withdrawn goalId sender amount]) := by
  refine ⟨?_, ?_, ?_⟩
  · intro reentry
    simp only [exec]
    cases hc : withdrawChecks s sender goalId now with
    | error e => rfl
    | ok amount => simp
  · intro transfer amount hc hfail
    unfold withdraw
    rw [hc]
    simp only []
    cases ht : transfer sender amount (finalizeGoal s goalId) with
    | mk b s2 =>
      rw [ht] at hfail
      simp only [] at hfail
      rw [hfail]
  · intro transfer amount s' h
    obtain ⟨-, s2, ht, hs'⟩ := withdraw_ok_elim h
    exact ⟨s2, ht, hs', by rw [hs']; rfl⟩

/-- Witness for C5: in `sDep` the checks pass (`withdrawChecks` returns 5)
and a transfer that reports failure makes `withdraw` revert with
`transferFailed`, while the same transaction leaves the state unchanged. -/
theorem withdraw_transfer_fail_atomic_witness :
    withdrawChecks sDep 1 0 150 = .ok 5 ∧
    ((fun (_ _ : Nat) (st : DreamSaver) => (false, st)) 1 5 (finalizeGoal sDep 0)).1 = false ∧
    withdraw (fun (_ _ : Nat) (st : DreamSaver) => (false, st)) sDep 1 0 150
      = .error .transferFailed ∧
    exec sDep (.withdraw 1 0 150 .nil false) = sDep :=
  ⟨by rfl, by rfl,
    (withdraw_transfer_fail_atomic sDep 1 0 150).2.1
      (fun (_ _ : Nat) (st : DreamSaver) => (false, st)) 5 (by rfl) (by rfl),
    (withdraw_transfer_fail_atomic sDep 1 0 150).1 .nil⟩

/-- Claim C1: when `withdraw` succeeds, the goal is finalized
(`isWithdrawn = true`, `balance = 0`) on the state handed to the external
transfer, the amount handed over equals the balance immediately before
finalization, and under any reentrant script run from that state the goal
stays withdrawn with zero balance, so every reentrant `withdraw` or
`deposit` on the same goal reverts — a second disbursement is
impossible. -/
theorem withdraw_effects_before_interaction
    (transfer : Nat → Nat → DreamSaver → Bool × DreamSaver)
    (s : DreamSaver) (sender goalId now amount : Nat) (s' : DreamSaver)
    (h : withdraw transfer s sender goalId now = .ok (amount, s')) :
    amount = (s.goals goalId).balance
    ∧ ((finalizeGoal s goalId).goals goalId).isWithdrawn = true
    ∧ ((finalizeGoal s goalId).goals goalId).balance = 0
    ∧ (∃ s2, transfer sender amount (finalizeGoal s goalId) = (true, s2) ∧
        s' = emitWithdrawn s2 goalId sender amount)
    ∧ (∀ reentry : TxList,
        ((execList (finalizeGoal s goalId) reentry).goals goalId).isWithdrawn = true
        ∧ ((execList (finalizeGoal s goalId) reentry).goals goalId).balance = 0
        ∧ (∀ (t2 : Nat → Nat → DreamSaver → Bool × DreamSaver) sender2 now2,
            ∃ e, withdraw t2 (execList (finalizeGoal s goalId) reentry)
              sender2 goalId now2 = .error e)
        ∧ (∀ sender2 v, ∃ e, deposit (execList (finalizeGoal s goalId) reentry)
              sender2 goalId v = .error e)) := by
  obtain ⟨hchecks, s2, ht, hs'⟩ := withdraw_ok_elim h
  obtain ⟨hex, -, -, -, -, hamt⟩ := withdrawChecks_ok_elim hchecks
  have hfin1 : ((finalizeGoal s goalId).goals goalId).isWithdrawn = true := by
    simp [finalizeGoal]
  have hfin2 : ((finalizeGoal s goalId).goals goalId).balance = 0 := by
    simp [finalizeGoal]
  refine ⟨hamt, hfin1, hfin2, ⟨s2, ht, hs'⟩, ?_⟩
  intro reentry
  have hfrozen : GoalFrozen (execList (finalizeGoal s goalId) reentry) goalId :=
    goalFrozen_execList reentry (finalizeGoal s goalId) goalId
      ⟨by simpa [finalizeGoal] using hex, hfin1, hfin2⟩
  exact ⟨hfrozen.2.1, hfrozen.2.2,
    fun t2 sender2 now2 => withdraw_on_withdrawn hfrozen.2.1 t2 sender2 now2,
    fun sender2 v => deposit_on_withdrawn hfrozen.2.1 sender2 v⟩

/-- Witness for C1: the owner's successful withdrawal of the 5 wei in
goal 0 of `sDep`. -/
theorem withdraw_effects_before_interaction_witness :
    withdraw plainTransfer sDep 1 0 150
      = .ok (5, emitWithdrawn (finalizeGoal sDep 0) 0 1 5) ∧
    (5 = (sDep.goals 0).balance
      ∧ ((finalizeGoal sDep 0).goals 0).isWithdrawn = true) :=
  ⟨by rfl,
    (withdraw_effects_before_interaction plainTransfer sDep 1 0 150 5
      (emitWithdrawn (finalizeGoal sDep 0) 0 1 5) (by rfl)).1,
    (withdraw_effects_before_interaction plainTransfer sDep 1 0 150 5
      (emitWithdrawn (finalizeGoal sDep 0) 0 1 5) (by rfl)).2.1⟩

/-- The transaction script that produces `sWd` from a fresh ledger:
create goal 0, deposit 5 wei, withdraw successfully. -/
def sWdScript : TxList :=
  .cons (.create 1 "Car" "Tesla" 5 100 0)
    (.cons (.deposit 2 0 5)
      (.cons (.withdraw 1 0 150 .nil true) .nil))

/-- Claim C4: in every reachable state, every goal with
`isWithdrawn = true` has balance 0; no transaction ever resets the flag,
and the balance of a withdrawn goal never increases again — it stays 0 —
because `deposit` rejects withdrawn goals. -/
theorem withdrawn_goals_stay_empty (s : DreamSaver) (h : Reachable s) :
    (∀ g, (s.goals g).isWithdrawn = true → (s.goals g).balance = 0)
    ∧ (∀ (a : Tx) (g : Nat), (s.goals g).isWithdrawn = true →
        ((exec s a).goals g).isWithdrawn = true
        ∧ ((exec s a).goals g).balance = 0)
    ∧ (∀ g sender v, (s.goals g).isWithdrawn = true →
        ∃ e, deposit s sender g v = .error e) := by
  have hinv := ledgerInv_reachable h
  refine ⟨fun g hw => (hinv.1 g hw).2, ?_, ?_⟩
  · intro a g hw
    have hf : GoalFrozen s g := ⟨(hinv.1 g hw).1, hw, (hinv.1 g hw).2⟩
    have := goalFrozen_exec a s g hf
    exact ⟨this.2.1, this.2.2⟩
  · intro g sender v hw
    exact deposit_on_withdrawn hw sender v

/-- Witness for C4 on the reachable state `sWd`, whose goal 0 is
withdrawn. -/
theorem withdrawn_goals_stay_empty_witness :
    Reachable sWd ∧ (sWd.goals 0).isWithdrawn = true ∧ (sWd.goals 0).balance = 0 :=
  ⟨⟨sWdScript, rfl⟩, by decide,
    (withdrawn_goals_stay_empty sWd ⟨sWdScript, rfl⟩).1 0 (by decide)⟩

/-- Claim C7: in every reachable state, `getGoalsByOwner` returns exactly
the ids of the goals owned by the queried identity, in creation order
(ids are assigned in creation order, so ascending id order), with no
duplicates or omissions; an identity owning no goals gets `[]` (the
function is total, so it never fails). -/
theorem getGoalsByOwner_exact (s : DreamSaver) (h : Reachable s) :
    (∀ o, getGoalsByOwner s o
      = (List.range (getTotalGoals s)).filter (fun g => (s.goals g).owner == o))
    ∧ (∀ o g, g ∈ getGoalsByOwner s o ↔
        g < getTotalGoals s ∧ (s.goals g).owner = o)
    ∧ (∀ o, (getGoalsByOwner s o).Nodup)
    ∧ (∀ o, List.Pairwise (· < ·) (getGoalsByOwner s o))
    ∧ (∀ o, (∀ g, g < getTotalGoals s → (s.goals g).owner ≠ o) →
        getGoalsByOwner s o = []) := by
  have h2 := (ledgerInv_reachable h).2
  refine ⟨fun o => h2 o, ?_, ?_, ?_, ?_⟩
  · intro o g
    rw [show getGoalsByOwner s o = s.ownerGoals o from rfl, h2 o]
    simp [List.mem_filter, List.mem_range, getTotalGoals]
  · intro o
    rw [show getGoalsByOwner s o = s.ownerGoals o from rfl, h2 o]
    exact (List.nodup_range _).filter _
  · intro o
    rw [show getGoalsByOwner s o = s.ownerGoals o from rfl, h2 o]
    exact (List.pairwise_lt_range _).sublist (List.filter_sublist _)
  · intro o hnone
    rw [show getGoalsByOwner s o = s.ownerGoals o from rfl, h2 o]
    refine List.filter_eq_nil_iff.mpr ?_
    intro g hg
    rw [List.mem_range] at hg
    simpa using hnone g hg

/-- Witness for C7 on the reachable state `sDep`: address 1 owns exactly
goal 0, address 2 owns nothing. -/
theorem getGoalsByOwner_exact_witness :
    Reachable sDep ∧
    getGoalsByOwner sDep 1
      = (List.range (getTotalGoals sDep)).filter (fun g => (sDep.goals g).owner == 1) ∧
    getGoalsByOwner sDep 1 = [0] ∧ getGoalsByOwner sDep 2 = [] :=
  ⟨⟨.cons (.create 1 "Car" "Tesla" 5 100 0) (.cons (.deposit 2 0 5) .nil), rfl⟩,
    (getGoalsByOwner_exact sDep
      ⟨.cons (.create 1 "Car" "Tesla" 5 100 0) (.cons (.deposit 2 0 5) .nil), rfl⟩).1 1,
    by decide, by decide⟩
